import Mathlib

/-!
Verification development for the TravelDNA repository.

Part 1 embeds the frontend TypeScript code that exists in the repository:
the API client `AgentApiService.request` (frontend agentApi service) and the
chat page helpers `extractDestinations` / `handleSendMessage`.

Part 2 models the planning core (IntentExtractor, Orchestrator, ScoringEngine,
ItineraryAssembler, FeedbackRefiner) from the specification, since that engine
is not present in the repository sources.
-/

/-- A JSON value, as produced by `response.json()` in the frontend API client. -/
inductive JsonVal where
  | null : JsonVal
  | bool : Bool → JsonVal
  | num : Int → JsonVal
  | str : String → JsonVal
  | arr : List JsonVal → JsonVal
  | obj : List (String × JsonVal) → JsonVal

/-- JavaScript property read `json?.k`: defined only on objects, `none` models
`undefined` (and the short-circuit when `json` is `null`). -/
def JsonVal.getField : JsonVal → String → Option JsonVal
  | .obj kvs, k => (kvs.find? (fun kv => kv.1 == k)).map (fun kv => kv.2)
  | _, _ => none

/-- JavaScript `k in json` on a (truthy, `typeof === 'object'`) value. -/
def JsonVal.hasKey : JsonVal → String → Bool
  | .obj kvs, k => kvs.any (fun kv => kv.1 == k)
  | _, _ => false

/-- JavaScript truthiness of a JSON value. -/
def JsonVal.truthy : JsonVal → Bool
  | .null => false
  | .bool b => b
  | .num n => n != 0
  | .str s => s != ""
  | .arr _ => true
  | .obj _ => true

/-- Truthiness of a possibly-`undefined` JavaScript value. -/
def jsTruthy : Option JsonVal → Bool
  | none => false
  | some v => v.truthy

/-- The `fetch` response state that `AgentApiService.request` inspects:
`ok`, `status`, and the parsed JSON body (`none` when `response.json()` threw,
in which case the code leaves `json = null`). -/
structure HttpResponse where
  ok : Bool
  status : Nat
  body : Option JsonVal

/-- The expression `json?.message || json?.error || buildDefaultMsg(status)`
from `AgentApiService.request` (JavaScript `||` picks the first truthy value). -/
def requestErrorMessage (json : Option JsonVal) (status : Nat) : JsonVal :=
  let m := json.bind (fun j => j.getField "message")
  let e := json.bind (fun j => j.getField "error")
  if jsTruthy m then m.getD .null
  else if jsTruthy e then e.getD .null
  else .str ("HTTP error! status: " ++ toString status)

/-- `AgentApiService.request` (frontend agentApi service): throws an `Error`
when `!response.ok`, otherwise unwraps a `{ status, data }` envelope if the
body is an object carrying both keys, else returns the body as-is. -/
def AgentApiService.request (resp : HttpResponse) : Except JsonVal JsonVal :=
  if resp.ok = false then
    Except.error (requestErrorMessage resp.body resp.status)
  else
    match resp.body with
    | some (JsonVal.obj kvs) =>
        if (JsonVal.obj kvs).hasKey "status" && (JsonVal.obj kvs).hasKey "data" then
          Except.ok (((JsonVal.obj kvs).getField "data").getD .null)
        else
          Except.ok (JsonVal.obj kvs)
    | some j => Except.ok j
    | none => Except.ok JsonVal.null

/-- `chars s p = true` iff `p` is an initial segment of `s` (character-wise). -/
def charsStartWith : List Char → List Char → Bool
  | _, [] => true
  | [], _ :: _ => false
  | a :: s, b :: p => a == b && charsStartWith s p

/-- Contiguous-substring test on character lists, used to model the JavaScript
`String.prototype.includes`. -/
def charsContains (p : List Char) : List Char → Bool
  | [] => charsStartWith [] p
  | a :: t => charsStartWith (a :: t) p || charsContains p t

/-- JavaScript `s.includes(sub)`. -/
def strIncludes (s sub : String) : Bool :=
  charsContains sub.toList s.toList

/-- The fixed destination whitelist of `extractDestinations` in
`frontend/app/chat/page.tsx`. -/
def commonDestinations : List String :=
  ["外滩", "东方明珠", "豫园", "南京路步行街", "人民广场", "田子坊", "新天地", "朱家角"]

/-- `extractDestinations` from `frontend/app/chat/page.tsx`: iterate the
whitelist in its fixed order and push every name contained in the input. -/
def extractDestinations (input : String) : List String :=
  commonDestinations.foldl
    (fun acc dest => if strIncludes input dest then acc ++ [dest] else acc) []

/-- The planning-request test in `handleSendMessage`. -/
def isPlanningRequest (msg : String) : Bool :=
  strIncludes msg "规划" || strIncludes msg "计划" ||
    strIncludes msg "路线" || strIncludes msg "行程"

/-- Which backend call `handleSendMessage` makes for a message. -/
inductive ChatBranch where
  | plan : ChatBranch
  | chat : ChatBranch
deriving DecidableEq

/-- The branch structure of `handleSendMessage` in `frontend/app/chat/page.tsx`:
a planning request with at least one whitelisted destination goes to
`createTravelPlan`, everything else goes to plain `chat`. -/
def handleSendMessageBranch (msg : String) : ChatBranch :=
  if isPlanningRequest msg then
    if (extractDestinations msg).length > 0 then ChatBranch.plan else ChatBranch.chat
  else ChatBranch.chat

/-! ## Part 2: the planning core, modelled from the specification.

The repository ships only the web frontend and documentation of its backend;
the engine specified in §4 (IntentExtractor, Orchestrator, ScoringEngine,
ItineraryAssembler, FeedbackRefiner) has no sources under the repository
snapshot, so it is modelled here from the specification text. -/

/-- Modelled from the spec: the adapter names of §2 and §4.3. -/
inductive AdapterName where
  | weather : AdapterName
  | crowd : AdapterName
  | traffic : AdapterName
  | navigation : AdapterName
  | poi : AdapterName
deriving DecidableEq

/-- Modelled from the spec: the error taxonomy of §7. -/
inductive ErrorKind where
  | ExtractionUnderSpecified : ErrorKind
  | AdapterTimeout : ErrorKind
  | AdapterUnavailable : ErrorKind
  | RateLimited : ErrorKind
  | NoViableCandidates : ErrorKind
  | IterationLimitExceeded : ErrorKind
deriving DecidableEq

/-- Modelled from the spec: the generic `ServiceResult<T>` envelope of §3. -/
structure ServiceResult (T : Type) where
  success : Bool
  data : Option T
  degraded : Bool
  source : AdapterName
  error : Option ErrorKind
deriving DecidableEq

/-- Modelled from the spec: weather condition reported by the weather adapter. -/
inductive WeatherCond where
  | sunny : WeatherCond
  | rain : WeatherCond
  | severe : WeatherCond
deriving DecidableEq

/-- Modelled from the spec: crowd level reported by the crowd adapter (§6). -/
inductive CrowdLevel where
  | low : CrowdLevel
  | medium : CrowdLevel
  | high : CrowdLevel
  | veryHigh : CrowdLevel
deriving DecidableEq

/-- Modelled from the spec: a POI candidate (§3).  Tag sets live in a fixed
finite tag universe `Fin n`; opening hours are minutes after midnight. -/
structure POICandidate (n : ℕ) where
  id : ℕ
  category_tags : Fin n → Bool
  price_level : ℕ
  indoor : Bool
  openMin : ℕ
  closeMin : ℕ

/-- Modelled from the spec: the normalized `TripIntent` of §3.  Preference
weights are rationals in `[0,1]`; the weather/crowd concerns of §3 are the
two Booleans; `budget_tier` is the ordinal tier index. -/
structure TripIntent (n : ℕ) where
  locations : List String
  duration_days : ℕ
  preference_tags : Fin n → ℚ
  crowdAverse : Bool
  weatherSensitive : Bool
  budget_tier : ℕ
  needs_clarification : Bool

/-- Modelled from the spec: a scored POI (§3).  The contextual adjustment
deltas in `score_breakdown` are rational; the scores are real because the
base score is `100 ×` a cosine similarity. -/
structure ScoredPOI (n : ℕ) where
  cand : POICandidate n
  base_score : ℝ
  adjusted_score : ℝ
  score_breakdown : List (String × ℚ)

/-- Modelled from the spec: one scheduled visit (§3).  `adjusted_score`
records the scheduled POI's score so a refined plan can be compared
score-for-score with its parent. -/
structure ItineraryItem where
  poi_id : ℕ
  startMin : ℕ
  endMin : ℕ
  travel_time_from_previous : ℕ
  alternates : List ℕ
  adjusted_score : ℝ

/-- Modelled from the spec: one day of the itinerary (§3). -/
structure ItineraryDay where
  items : List ItineraryItem

/-- Modelled from the spec: the `TravelPlan` of §3.  `droppedIds` records the
candidates the assembler could neither schedule nor attach as alternates;
the spec asserts this list is always empty, which is refuted below. -/
structure TravelPlan where
  days : List ItineraryDay
  overall_score : ℝ
  iteration : ℕ
  parent_plan_id : Option ℕ
  id : ℕ
  isPartial : Bool
  droppedIds : List ℕ

/-- Modelled from the spec: the keyword taxonomy of §4.1, a data-driven
configuration mapping phrases to locations, durations, preference tags,
companion-driven tags and concern words. -/
structure Taxonomy (n : ℕ) where
  locationNames : List String
  durationPhrases : List (String × ℕ)
  prefKeywords : List (String × Fin n)
  companionKeywords : List (String × Fin n)
  crowdAverseWords : List String
  weatherWords : List String
  budgetPhrases : List (String × ℕ)

/-- Modelled from the spec: `IntentExtractor.extract` (§4.1).  Matches the
raw text and structured tags against the taxonomy; structured tags take
precedence over free text for the duration; when a `prior_intent` is given,
fields with no new evidence default to the prior value.  The function is
total: under-specification is signaled via `needs_clarification`, never
raised (§4.1 failure clause). -/
def IntentExtractor.extract {n : ℕ} (tax : Taxonomy n) (raw : String)
    (tags : List String) (prior : Option (TripIntent n)) : TripIntent n :=
  let locs := tax.locationNames.filter (fun l => strIncludes raw l)
  let durFromTags := tags.findSome?
    (fun t => (tax.durationPhrases.find? (fun kv => strIncludes t kv.1)).map Prod.snd)
  let durFromText := (tax.durationPhrases.find? (fun kv => strIncludes raw kv.1)).map Prod.snd
  let dur := match durFromTags with
    | some d => some d
    | none => durFromText
  let prefHits := (tax.prefKeywords ++ tax.companionKeywords).filter
    (fun kv => strIncludes raw kv.1)
  let budgetHit := (tax.budgetPhrases.find? (fun kv => strIncludes raw kv.1)).map Prod.snd
  let locations := if locs.isEmpty then
      (match prior with | some p => p.locations | none => []) else locs
  let duration_days := match dur with
    | some d => max d 1
    | none => match prior with | some p => p.duration_days | none => 1
  let preference_tags : Fin n → ℚ :=
    if prefHits.isEmpty then
      (match prior with | some p => p.preference_tags | none => fun _ => 0)
    else fun i =>
      max (match prior with | some p => p.preference_tags i | none => 0)
        (if prefHits.any (fun kv => decide (kv.2 = i)) then 1 else 0)
  let crowdAverse := if tax.crowdAverseWords.any (fun k => strIncludes raw k) then true
    else (match prior with | some p => p.crowdAverse | none => false)
  let weatherSensitive := if tax.weatherWords.any (fun k => strIncludes raw k) then true
    else (match prior with | some p => p.weatherSensitive | none => false)
  let budget_tier := match budgetHit with
    | some t => t
    | none => match prior with | some p => p.budget_tier | none => 1
  { locations := locations
    duration_days := duration_days
    preference_tags := preference_tags
    crowdAverse := crowdAverse
    weatherSensitive := weatherSensitive
    budget_tier := budget_tier
    needs_clarification := locations.isEmpty }

/-- Modelled from the spec: a concrete default configuration of the taxonomy
over a four-tag universe (romantic, family-friendly, accessible, scenic),
with the place names and phrase examples the spec mentions. -/
def defaultTaxonomy : Taxonomy 4 :=
  { locationNames := ["外滩", "东方明珠", "豫园", "南京路步行街", "人民广场",
      "田子坊", "新天地", "朱家角", "上海"]
    durationPhrases := [("3天2晚", 3), ("一日", 1), ("一天", 1), ("1天", 1),
      ("两天", 2), ("2天", 2), ("三天", 3), ("3天", 3)]
    prefKeywords := [("浪漫", 0), ("安静", 0), ("亲子", 1), ("无障碍", 2), ("风景", 3)]
    companionKeywords := [("女朋友", 0), ("男朋友", 0), ("孩子", 1), ("父母", 2)]
    crowdAverseWords := ["人少", "不想排队", "避开人流"]
    weatherWords := ["下雨", "天气"]
    budgetPhrases := [("预算1万", 3), ("穷游", 0)] }

/-- Modelled from the spec: dot product of two tag vectors (§4.4, glossary). -/
def dotQ {n : ℕ} (v w : Fin n → ℚ) : ℚ := ∑ i, v i * w i

/-- Modelled from the spec: the intent's tag vector (§4.4): each preference
tag (companion-driven boosts already folded in by the extractor) contributes
its weight. -/
def intentVector {n : ℕ} (intent : TripIntent n) : Fin n → ℚ :=
  intent.preference_tags

/-- Modelled from the spec: a candidate's tag vector (§4.4), the indicator
vector of its `category_tags`, normalized into `[0,1]` weights. -/
def candidateVector {n : ℕ} (c : POICandidate n) : Fin n → ℚ :=
  fun i => if c.category_tags i then 1 else 0

/-- Modelled from the spec: cosine similarity of two tag vectors. -/
noncomputable def cosineSimilarity {n : ℕ} (v w : Fin n → ℚ) : ℝ :=
  (dotQ v w : ℝ) / (Real.sqrt (dotQ v v : ℝ) * Real.sqrt (dotQ w w : ℝ))

/-- Modelled from the spec: `base_score = 100 × cosine_similarity`, defined
as 0 when either vector is all-zero (§4.4). -/
noncomputable def baseScore {n : ℕ} (v w : Fin n → ℚ) : ℝ :=
  if v = 0 ∨ w = 0 then 0 else 100 * cosineSimilarity v w

/-- Modelled from the spec: the adapter results the orchestrator hands to
scoring and assembly — the `mapping of AdapterName to ServiceResult` of
§4.3/§4.4, in typed form. -/
structure AdapterContext (n : ℕ) where
  weather : ServiceResult WeatherCond
  crowd : ServiceResult CrowdLevel
  navigation : ServiceResult ℕ
  poi : ServiceResult (List (POICandidate n))

/-- Modelled from the spec: raw weather penalty (§4.4): precipitation or
extreme weather penalizes outdoor candidates (−15 rain, −25 severe); indoor
candidates get a zero penalty. -/
def weatherPenaltyRaw {n : ℕ} (w : Option WeatherCond) (c : POICandidate n) : ℚ :=
  match w with
  | some WeatherCond.rain => if c.indoor then 0 else -15
  | some WeatherCond.severe => if c.indoor then 0 else -25
  | _ => 0

/-- Modelled from the spec: raw crowd penalty (§4.4): −10/−20 for high/very
high crowd when the intent carries the crowd-aversion concern. -/
def crowdPenaltyRaw {n : ℕ} (lvl : Option CrowdLevel) (intent : TripIntent n) : ℚ :=
  if intent.crowdAverse then
    match lvl with
    | some CrowdLevel.high => -10
    | some CrowdLevel.veryHigh => -20
    | _ => 0
  else 0

/-- Modelled from the spec: budget penalty (§4.4), proportional to how far
the candidate's price level exceeds the intent's budget tier. -/
def budgetPenalty {n : ℕ} (intent : TripIntent n) (c : POICandidate n) : ℚ :=
  if intent.budget_tier < c.price_level then
    -(5 * ((c.price_level : ℚ) - (intent.budget_tier : ℚ)))
  else 0

/-- Modelled from the spec: the degraded-data discount (§4.4): when the
informing adapter's result is degraded, halve the adjustment's magnitude
but still apply it. -/
def applyDegraded (degraded : Bool) (delta : ℚ) : ℚ :=
  if degraded then delta / 2 else delta

/-- Modelled from the spec: clamping of the adjusted score into `[0,100]`. -/
noncomputable def clampScore (x : ℝ) : ℝ := max 0 (min 100 x)

/-- Modelled from the spec: score one candidate (§4.4): base score from the
tag vectors, contextual adjustments logged in `score_breakdown`, then the
sum clamped into `[0,100]`. -/
noncomputable def scoreOne {n : ℕ} (intent : TripIntent n) (ctx : AdapterContext n)
    (c : POICandidate n) : ScoredPOI n :=
  let base := baseScore (intentVector intent) (candidateVector c)
  let wAdj := applyDegraded ctx.weather.degraded (weatherPenaltyRaw ctx.weather.data c)
  let cAdj := applyDegraded ctx.crowd.degraded (crowdPenaltyRaw ctx.crowd.data intent)
  let bAdj := budgetPenalty intent c
  let breakdown := [("weather", wAdj), ("crowd", cAdj), ("budget", bAdj)]
  { cand := c
    base_score := base
    adjusted_score := clampScore (base + ((breakdown.map Prod.snd).sum : ℚ))
    score_breakdown := breakdown }

/-- Modelled from the spec: the output order of `ScoringEngine.score` (§4.4):
descending `adjusted_score`, ties broken by candidate `id`. -/
def scoreOrder {n : ℕ} (s t : ScoredPOI n) : Prop :=
  t.adjusted_score < s.adjusted_score ∨
    (s.adjusted_score = t.adjusted_score ∧ s.cand.id ≤ t.cand.id)

noncomputable instance scoreOrderDecidable {n : ℕ} : DecidableRel (@scoreOrder n) :=
  fun s t => by unfold scoreOrder; infer_instance

instance scoreOrderTotal {n : ℕ} : IsTotal (ScoredPOI n) scoreOrder := by
  constructor
  intro s t
  rcases lt_trichotomy s.adjusted_score t.adjusted_score with h | h | h
  · exact Or.inr (Or.inl h)
  · rcases Nat.le_total s.cand.id t.cand.id with hid | hid
    · exact Or.inl (Or.inr ⟨h, hid⟩)
    · exact Or.inr (Or.inr ⟨h.symm, hid⟩)
  · exact Or.inl (Or.inl h)

instance scoreOrderTrans {n : ℕ} : IsTrans (ScoredPOI n) scoreOrder := by
  constructor
  intro s t u hst htu
  rcases hst with h1 | ⟨h1, h1id⟩
  · rcases htu with h2 | ⟨h2, _⟩
    · exact Or.inl (h2.trans h1)
    · exact Or.inl (h2 ▸ h1)
  · rcases htu with h2 | ⟨h2, h2id⟩
    · exact Or.inl (h1 ▸ h2)
    · exact Or.inr ⟨h1.trans h2, h1id.trans h2id⟩

/-- Modelled from the spec: `ScoringEngine.score` (§4.4): score every
candidate, then sort descending by adjusted score with the deterministic
id tie-break. -/
noncomputable def ScoringEngine.score {n : ℕ} (intent : TripIntent n)
    (cands : List (POICandidate n)) (ctx : AdapterContext n) : List (ScoredPOI n) :=
  List.insertionSort scoreOrder (cands.map (scoreOne intent ctx))

/-- Modelled from the spec: what one attempt of an adapter call can produce
(§4.3): a value, a timeout, or a transient failure. -/
inductive AttemptOutcome (T : Type) where
  | ok : T → AttemptOutcome T
  | timeout : AttemptOutcome T
  | failure : AttemptOutcome T

/-- Modelled from the spec: the adapter-call wrapper of §4.3: the first
attempt plus up to 2 retries; if all three attempts fail the static fallback
payload is returned, clearly marked `degraded = true`.  No attempt outcome
ever escapes as an exception: the result is always a `ServiceResult`. -/
def callAdapter {T : Type} (name : AdapterName) (attempts : ℕ → AttemptOutcome T)
    (fallback : T) : ServiceResult T :=
  match attempts 0 with
  | AttemptOutcome.ok v => ⟨true, some v, false, name, none⟩
  | _ =>
    match attempts 1 with
    | AttemptOutcome.ok v => ⟨true, some v, false, name, none⟩
    | _ =>
      match attempts 2 with
      | AttemptOutcome.ok v => ⟨true, some v, false, name, none⟩
      | _ => ⟨false, some fallback, true, name, some ErrorKind.AdapterUnavailable⟩

/-- Modelled from the spec: the external world an orchestrator run observes:
for each adapter, the outcome of each successive call attempt. -/
structure AdapterEnv (n : ℕ) where
  weatherAttempts : ℕ → AttemptOutcome WeatherCond
  crowdAttempts : ℕ → AttemptOutcome CrowdLevel
  navAttempts : ℕ → AttemptOutcome ℕ
  poiAttempts : ℕ → AttemptOutcome (List (POICandidate n))

/-- Modelled from the spec: static fallback payload of the weather adapter. -/
def weatherFallback : WeatherCond := WeatherCond.sunny

/-- Modelled from the spec: static fallback payload of the crowd adapter. -/
def crowdFallback : CrowdLevel := CrowdLevel.medium

/-- Modelled from the spec: fallback travel time (minutes) when navigation
data is unavailable. -/
def navFallback : ℕ := 30

/-- Modelled from the spec: static fallback payload of the POI adapter. -/
def poiFallback {n : ℕ} : List (POICandidate n) := []

/-- Modelled from the spec: `Orchestrator.run` (§4.3): every adapter call is
wrapped with the retry/fallback discipline and the merged envelope of
`ServiceResult`s is returned; raw failures never cross this boundary. -/
def Orchestrator.run {n : ℕ} (_intent : TripIntent n) (env : AdapterEnv n) :
    AdapterContext n :=
  { weather := callAdapter AdapterName.weather env.weatherAttempts weatherFallback
    crowd := callAdapter AdapterName.crowd env.crowdAttempts crowdFallback
    navigation := callAdapter AdapterName.navigation env.navAttempts navFallback
    poi := callAdapter AdapterName.poi env.poiAttempts poiFallback }

/-- Modelled from the spec: a day holds at most 4 items (§4.5). -/
def maxItemsPerDay : ℕ := 4

/-- Modelled from the spec: cumulative in-day travel threshold, 3 hours. -/
def travelLimitMin : ℕ := 180

/-- Modelled from the spec: default day start, 09:00. -/
def dayStartMin : ℕ := 540

/-- Modelled from the spec: the default visit-duration table of §4.5,
collapsed to its default entry (90 minutes). -/
def visitMinutes {n : ℕ} (_c : POICandidate n) : ℕ := 90

/-- Travel time reported by the navigation result, or the fallback. -/
def travelOf (nav : ServiceResult ℕ) : ℕ :=
  match nav.data with
  | some t => t
  | none => navFallback

/-- End of a day so far: the last item's end, else the default day start. -/
def dayEndMin (d : ItineraryDay) : ℕ :=
  match d.items.getLast? with
  | some it => it.endMin
  | none => dayStartMin

/-- Cumulative in-day travel time so far. -/
def dayTravel (d : ItineraryDay) : ℕ :=
  (d.items.map (fun it => it.travel_time_from_previous)).sum

/-- Modelled from the spec: can this day take the candidate (§4.5): capacity,
cumulative travel under the threshold, and the proposed window overlapping
the candidate's opening hours. -/
def dayFits {n : ℕ} (d : ItineraryDay) (s : ScoredPOI n) (nav : ServiceResult ℕ) : Bool :=
  let t := if d.items.isEmpty then 0 else travelOf nav
  let start := dayEndMin d + t
  let stop := start + visitMinutes s.cand
  decide (d.items.length < maxItemsPerDay) &&
    decide (dayTravel d + t ≤ travelLimitMin) &&
    decide (start < s.cand.closeMin) && decide (s.cand.openMin < stop)

/-- Append the candidate to a day, anchoring its window after the previous
item's end plus the navigation-reported travel time (§4.5). -/
def appendToDay {n : ℕ} (d : ItineraryDay) (s : ScoredPOI n) (nav : ServiceResult ℕ) :
    ItineraryDay :=
  let t := if d.items.isEmpty then 0 else travelOf nav
  let start := dayEndMin d + t
  ⟨d.items ++ [{ poi_id := s.cand.id
                 startMin := start
                 endMin := start + visitMinutes s.cand
                 travel_time_from_previous := t
                 alternates := []
                 adjusted_score := s.adjusted_score }]⟩

/-- Modelled from the spec: greedy placement into the earliest day that can
accommodate the candidate (§4.5); `none` when no day can. -/
def placeInDays {n : ℕ} (days : List ItineraryDay) (s : ScoredPOI n)
    (nav : ServiceResult ℕ) : Option (List ItineraryDay) :=
  match days with
  | [] => none
  | d :: rest =>
    if dayFits d s nav then some (appendToDay d s nav :: rest)
    else (placeInDays rest s nav).map (fun ds => d :: ds)

/-- Attach a dropped candidate as an alternate of the first item (in day
order) whose alternates list still has room (at most 3 alternates, §3). -/
def addAltItems (items : List ItineraryItem) (pid : ℕ) : Option (List ItineraryItem) :=
  match items with
  | [] => none
  | it :: rest =>
    if it.alternates.length < 3 then
      some ({ it with alternates := it.alternates ++ [pid] } :: rest)
    else (addAltItems rest pid).map (fun is => it :: is)

/-- Attach a dropped candidate as an alternate inside the first day that has
an item with alternate capacity (the model's reading of "the nearest eligible
day's item", §4.5). -/
def addAlternate (days : List ItineraryDay) (pid : ℕ) : Option (List ItineraryDay) :=
  match days with
  | [] => none
  | d :: rest =>
    match addAltItems d.items pid with
    | some items2 => some (⟨items2⟩ :: rest)
    | none => (addAlternate rest pid).map (fun ds => d :: ds)

/-- One step of the greedy fill: schedule the candidate if some day fits it,
else record it as an alternate, else record it as dropped. -/
def assembleStep {n : ℕ} (nav : ServiceResult ℕ)
    (st : List ItineraryDay × List ℕ) (s : ScoredPOI n) :
    List ItineraryDay × List ℕ :=
  match placeInDays st.1 s nav with
  | some days2 => (days2, st.2)
  | none =>
    match addAlternate st.1 s.cand.id with
    | some days2 => (days2, st.2)
    | none => (st.1, st.2 ++ [s.cand.id])

/-- Greedy day-fill over the scored candidates in their given order. -/
def assembleState {n : ℕ} (scored : List (ScoredPOI n)) (days0 : List ItineraryDay)
    (nav : ServiceResult ℕ) : List ItineraryDay × List ℕ :=
  scored.foldl (assembleStep nav) (days0, [])

/-- All scheduled POI ids of a day list. -/
def schedIds (days : List ItineraryDay) : List ℕ :=
  days.flatMap (fun d => d.items.map (fun it => it.poi_id))

/-- All alternate POI ids of a day list. -/
def altIds (days : List ItineraryDay) : List ℕ :=
  days.flatMap (fun d => d.items.flatMap (fun it => it.alternates))

/-- Modelled from the spec: `ItineraryAssembler.assemble` (§4.5): greedy
day-fill of the scored candidates over `duration_days` days, overall score
the mean of the scheduled items' adjusted scores, `isPartial` set when there
are fewer candidates than days. -/
noncomputable def ItineraryAssembler.assemble {n : ℕ} (scored : List (ScoredPOI n))
    (intent : TripIntent n) (nav : ServiceResult ℕ) : TravelPlan :=
  let st := assembleState scored (List.replicate (max intent.duration_days 1) ⟨[]⟩) nav
  let scheduled := st.1.flatMap (fun d => d.items)
  { days := st.1
    overall_score := (scheduled.map (fun it => it.adjusted_score)).sum / scheduled.length
    iteration := 0
    parent_plan_id := none
    id := 0
    isPartial := decide (scored.length < intent.duration_days)
    droppedIds := st.2 }

/-- Modelled from the spec: the refinement iteration cap (§4.6). -/
def maxIterations : ℕ := 5

/-- Modelled from the spec: one full planning pass (§2 data flow): orchestrate
the adapters for the intent, score the fetched candidates, assemble the plan. -/
noncomputable def planOnce {n : ℕ} (intent : TripIntent n) (env : AdapterEnv n) :
    TravelPlan :=
  let ctx := Orchestrator.run intent env
  let cands := ctx.poi.data.getD []
  let scored := ScoringEngine.score intent cands ctx
  ItineraryAssembler.assemble scored intent ctx.navigation

/-- Modelled from the spec: `FeedbackRefiner.refine` (§4.6): bounded by
`maxIterations`; re-extracts the intent from the feedback text with the prior
intent as base, re-runs orchestration, scoring and assembly, and returns a
new plan with `iteration` incremented and `parent_plan_id` set. -/
noncomputable def FeedbackRefiner.refine {n : ℕ} (tax : Taxonomy n) (prev : TravelPlan)
    (feedback : String) (prior : TripIntent n) (env : AdapterEnv n) :
    Except ErrorKind TravelPlan :=
  if maxIterations ≤ prev.iteration then Except.error ErrorKind.IterationLimitExceeded
  else
    let intent2 := IntentExtractor.extract tax feedback [] (some prior)
    let ctx := Orchestrator.run intent2 env
    let cands := ctx.poi.data.getD []
    let scored := ScoringEngine.score intent2 cands ctx
    let p := ItineraryAssembler.assemble scored intent2 ctx.navigation
    Except.ok { p with
      iteration := prev.iteration + 1
      parent_plan_id := some prev.id
      id := prev.id + 1 }

/-- The adjusted scores carried by a plan's scheduled items, in plan order. -/
def planScores (p : TravelPlan) : List ℝ :=
  p.days.flatMap (fun d => d.items.map (fun it => it.adjusted_score))

/-- A candidate id is accounted for by an assembly state when it is
scheduled, recorded as an alternate, or recorded as dropped. -/
def accountedIn (st : List ItineraryDay × List ℕ) (x : ℕ) : Prop :=
  x ∈ schedIds st.1 ∨ x ∈ altIds st.1 ∨ x ∈ st.2

/-- Every item of every day carries at most 3 alternates (§3 invariant). -/
def altOk (days : List ItineraryDay) : Prop :=
  ∀ d ∈ days, ∀ it ∈ d.items, it.alternates.length ≤ 3

/-- Concrete fixture: a one-day intent preferring the first tag. -/
def sampleIntent : TripIntent 4 :=
  { locations := ["外滩"]
    duration_days := 1
    preference_tags := fun i => if i = 0 then 1 else 0
    crowdAverse := true
    weatherSensitive := false
    budget_tier := 1
    needs_clarification := false }

/-- Concrete fixture: an indoor candidate tagged with the first tag. -/
def sampleCand : POICandidate 4 :=
  { id := 1
    category_tags := fun i => decide (i = 0)
    price_level := 1
    indoor := true
    openMin := 540
    closeMin := 1320 }

/-- Concrete fixture: a fully successful adapter context. -/
def sampleCtx : AdapterContext 4 :=
  { weather := ⟨true, some WeatherCond.sunny, false, AdapterName.weather, none⟩
    crowd := ⟨true, some CrowdLevel.low, false, AdapterName.crowd, none⟩
    navigation := ⟨true, some 30, false, AdapterName.navigation, none⟩
    poi := ⟨true, some [], false, AdapterName.poi, none⟩ }

/-- Concrete fixture: a plan chain that has already used all 5 refinements. -/
def samplePlanAtCap : TravelPlan :=
  { days := []
    overall_score := 0
    iteration := 5
    parent_plan_id := none
    id := 9
    isPartial := false
    droppedIds := [] }

/-- Concrete fixture: an environment whose adapters always succeed. -/
def sampleEnv : AdapterEnv 4 :=
  { weatherAttempts := fun _ => AttemptOutcome.ok WeatherCond.sunny
    crowdAttempts := fun _ => AttemptOutcome.ok CrowdLevel.low
    navAttempts := fun _ => AttemptOutcome.ok 30
    poiAttempts := fun _ => AttemptOutcome.ok [] }

/-- Concrete fixture: one scored candidate. -/
def sampleScored : ScoredPOI 4 := ⟨sampleCand, 0, 0, []⟩

/-- Concrete fixture: always-open free indoor candidate number `k`. -/
def cexCand (k : ℕ) : POICandidate 4 :=
  { id := k
    category_tags := fun _ => false
    price_level := 0
    indoor := true
    openMin := 0
    closeMin := 1440 }

/-- Concrete fixture: seventeen scored candidates, more than one day's
scheduling capacity (4 items) plus alternate capacity (3 per item). -/
def cexScored : List (ScoredPOI 4) :=
  (List.range 17).map (fun k => ⟨cexCand k, 0, 0, []⟩)

/-- Concrete fixture: a one-day intent. -/
def cexIntent : TripIntent 4 :=
  { locations := []
    duration_days := 1
    preference_tags := fun _ => 0
    crowdAverse := false
    weatherSensitive := false
    budget_tier := 1
    needs_clarification := false }

/-- Concrete fixture: a successful navigation result reporting 30 minutes. -/
def cexNav : ServiceResult ℕ := ⟨true, some 30, false, AdapterName.navigation, none⟩

/-- Concrete fixture: a failed HTTP response whose body carries a present
but empty `message` field next to a non-empty `error` field. -/
def cexResp : HttpResponse :=
  { ok := false
    status := 500
    body := some (JsonVal.obj [("message", JsonVal.str ""), ("error", JsonVal.str "boom")]) }

/-! ## Theorems -/

theorem mem_score_iff {n : ℕ} (intent : TripIntent n) (cands : List (POICandidate n))
    (ctx : AdapterContext n) (s : ScoredPOI n) :
    s ∈ ScoringEngine.score intent cands ctx ↔ s ∈ cands.map (scoreOne intent ctx) :=
  (List.perm_insertionSort scoreOrder (cands.map (scoreOne intent ctx))).mem_iff

theorem clampScore_nonneg (x : ℝ) : 0 ≤ clampScore x := le_max_left 0 _

theorem clampScore_le_100 (x : ℝ) : clampScore x ≤ 100 :=
  max_le (by norm_num) (min_le_left _ _)

/-- C1: every `ScoredPOI` returned by `ScoringEngine.score` has its
`adjusted_score` equal to the clamp of `base_score` plus the summed
contextual adjustments, and that score always lies in `[0, 100]`. -/
theorem scored_poi_adjusted_in_range {n : ℕ} (intent : TripIntent n)
    (cands : List (POICandidate n)) (ctx : AdapterContext n) (s : ScoredPOI n)
    (hs : s ∈ ScoringEngine.score intent cands ctx) :
    s.adjusted_score =
        clampScore (s.base_score + ((s.score_breakdown.map Prod.snd).sum : ℚ))
      ∧ 0 ≤ s.adjusted_score ∧ s.adjusted_score ≤ 100 := by
  obtain ⟨c, _, rfl⟩ := List.mem_map.mp ((mem_score_iff intent cands ctx s).mp hs)
  have h1 : (scoreOne intent ctx c).adjusted_score =
      clampScore ((scoreOne intent ctx c).base_score +
        (((scoreOne intent ctx c).score_breakdown.map Prod.snd).sum : ℚ)) := rfl
  exact ⟨h1, h1 ▸ clampScore_nonneg _, h1 ▸ clampScore_le_100 _⟩

/-- Closed witness for C1 at a concrete scoring run. -/
theorem scored_poi_adjusted_in_range_witness :
    0 ≤ (scoreOne sampleIntent sampleCtx sampleCand).adjusted_score ∧
      (scoreOne sampleIntent sampleCtx sampleCand).adjusted_score ≤ 100 :=
  (scored_poi_adjusted_in_range sampleIntent [sampleCand] sampleCtx
    (scoreOne sampleIntent sampleCtx sampleCand)
    (by simp [ScoringEngine.score, List.insertionSort, List.orderedInsert])).2

/-- C3: for a fixed intent, fixed candidates and fixed adapter results,
`ScoringEngine.score` returns the scored candidates sorted descending by
`adjusted_score` with ties broken by candidate id (the `scoreOrder`
relation), it is a permutation of the pointwise scoring of the input, and
repeated runs of `score` and `assemble` on identical inputs return
identical output. -/
theorem score_assemble_deterministic {n : ℕ} (intent : TripIntent n)
    (cands : List (POICandidate n)) (ctx : AdapterContext n) :
    (ScoringEngine.score intent cands ctx).Sorted scoreOrder
      ∧ (ScoringEngine.score intent cands ctx).Perm (cands.map (scoreOne intent ctx))
      ∧ ScoringEngine.score intent cands ctx = ScoringEngine.score intent cands ctx
      ∧ ItineraryAssembler.assemble (ScoringEngine.score intent cands ctx) intent
          ctx.navigation =
        ItineraryAssembler.assemble (ScoringEngine.score intent cands ctx) intent
          ctx.navigation :=
  ⟨List.sorted_insertionSort scoreOrder _, List.perm_insertionSort scoreOrder _, rfl, rfl⟩

/-- C4: `FeedbackRefiner.refine` is bounded by `maxIterations = 5`: a call on
a plan that already reached 5 iterations returns `IterationLimitExceeded`,
a call below the bound succeeds, and every successful call returns a plan
whose `iteration` is the previous plan's plus one. -/
theorem refine_iteration_bound {n : ℕ} (tax : Taxonomy n) (prev : TravelPlan)
    (fb : String) (prior : TripIntent n) (env : AdapterEnv n) :
    (maxIterations ≤ prev.iteration →
        FeedbackRefiner.refine tax prev fb prior env =
          Except.error ErrorKind.IterationLimitExceeded)
      ∧ (∀ p, FeedbackRefiner.refine tax prev fb prior env = Except.ok p →
          p.iteration = prev.iteration + 1)
      ∧ (prev.iteration < maxIterations →
          ∃ p, FeedbackRefiner.refine tax prev fb prior env = Except.ok p) := by
  unfold FeedbackRefiner.refine
  refine ⟨fun h => by rw [if_pos h], fun p hp => ?_, fun h => ?_⟩
  · by_cases h : maxIterations ≤ prev.iteration
    · rw [if_pos h] at hp
      cases hp
    · rw [if_neg h] at hp
      cases hp
      rfl
  · rw [if_neg (not_le.mpr h)]
    exact ⟨_, rfl⟩

/-- Closed witness for C4: a 6th refinement attempt on a plan with
`iteration = 5` is rejected with `IterationLimitExceeded`. -/
theorem refine_iteration_bound_witness :
    FeedbackRefiner.refine defaultTaxonomy samplePlanAtCap "换个安排" sampleIntent sampleEnv =
      Except.error ErrorKind.IterationLimitExceeded :=
  (refine_iteration_bound defaultTaxonomy samplePlanAtCap "换个安排" sampleIntent
    sampleEnv).1 (by decide)

theorem callAdapter_data_isSome {T : Type} (name : AdapterName)
    (attempts : ℕ → AttemptOutcome T) (fb : T) :
    (callAdapter name attempts fb).data.isSome = true := by
  unfold callAdapter
  cases attempts 0 <;> cases attempts 1 <;> cases attempts 2 <;> rfl

/-- C6: the adapter wrapper always returns a `ServiceResult` carrying data:
a first success is returned as-is, at most 2 retries are ever consulted
(the result only depends on attempts 0, 1, 2), and when all three attempts
fail the static fallback payload is returned marked `degraded = true`; the
orchestrator therefore hands scoring and assembly a well-formed result for
every adapter, never a raw exception. -/
theorem adapter_failures_contained {T : Type} (name : AdapterName)
    (attempts : ℕ → AttemptOutcome T) (fb : T) :
    ((callAdapter name attempts fb).data.isSome = true)
      ∧ (∀ v, attempts 0 = AttemptOutcome.ok v →
          callAdapter name attempts fb = ⟨true, some v, false, name, none⟩)
      ∧ ((∀ v, attempts 0 ≠ AttemptOutcome.ok v) →
          (∀ v, attempts 1 ≠ AttemptOutcome.ok v) →
          (∀ v, attempts 2 ≠ AttemptOutcome.ok v) →
          callAdapter name attempts fb =
            ⟨false, some fb, true, name, some ErrorKind.AdapterUnavailable⟩)
      ∧ (∀ g : ℕ → AttemptOutcome T, (∀ k, k ≤ 2 → g k = attempts k) →
          callAdapter name g fb = callAdapter name attempts fb)
      ∧ (∀ (m : ℕ) (intent : TripIntent m) (env : AdapterEnv m),
          (Orchestrator.run intent env).weather.data.isSome = true
            ∧ (Orchestrator.run intent env).crowd.data.isSome = true
            ∧ (Orchestrator.run intent env).navigation.data.isSome = true
            ∧ (Orchestrator.run intent env).poi.data.isSome = true) := by
  refine ⟨callAdapter_data_isSome name attempts fb, ?_, ?_, ?_, ?_⟩
  · intro v hv
    unfold callAdapter
    rw [hv]
  · intro h0 h1 h2
    unfold callAdapter
    cases e0 : attempts 0 with
    | ok v => exact absurd e0 (h0 v)
    | _ =>
      cases e1 : attempts 1 with
      | ok v => exact absurd e1 (h1 v)
      | _ =>
        cases e2 : attempts 2 with
        | ok v => exact absurd e2 (h2 v)
        | _ => rfl
  · intro g hg
    unfold callAdapter
    rw [hg 0 (by norm_num), hg 1 (by norm_num), hg 2 (by norm_num)]
  · intro m intent env
    exact ⟨callAdapter_data_isSome _ _ _, callAdapter_data_isSome _ _ _,
      callAdapter_data_isSome _ _ _, callAdapter_data_isSome _ _ _⟩

/-- Closed witness for C6: an adapter whose every attempt fails yields the
degraded fallback `ServiceResult`, not an exception. -/
theorem adapter_failures_contained_witness :
    callAdapter AdapterName.poi (fun _ => AttemptOutcome.failure) (7 : ℕ) =
      ⟨false, some 7, true, AdapterName.poi, some ErrorKind.AdapterUnavailable⟩ :=
  (adapter_failures_contained AdapterName.poi (fun _ => AttemptOutcome.failure) 7).2.2.1
    (fun _ h => AttemptOutcome.noConfusion h)
    (fun _ h => AttemptOutcome.noConfusion h)
    (fun _ h => AttemptOutcome.noConfusion h)

/-- C8: when neither a location nor a duration can be extracted from the raw
text and tags, `IntentExtractor.extract` (a total function — it never
raises) returns an intent with empty `locations`, `duration_days = 1`, and
the under-specification signaled through `needs_clarification = true`. -/
theorem extract_underspecified {n : ℕ} (tax : Taxonomy n) (raw : String)
    (tags : List String)
    (hloc : ∀ l ∈ tax.locationNames, strIncludes raw l = false)
    (hdurText : ∀ kv ∈ tax.durationPhrases, strIncludes raw kv.1 = false)
    (hdurTags : ∀ t ∈ tags, ∀ kv ∈ tax.durationPhrases, strIncludes t kv.1 = false) :
    (IntentExtractor.extract tax raw tags none).locations = []
      ∧ (IntentExtractor.extract tax raw tags none).duration_days = 1
      ∧ (IntentExtractor.extract tax raw tags none).needs_clarification = true := by
  have hl : tax.locationNames.filter (fun l => strIncludes raw l) = [] :=
    List.filter_eq_nil_iff.mpr (fun a ha => by simp [hloc a ha])
  have hdt : tax.durationPhrases.find? (fun kv => strIncludes raw kv.1) = none :=
    List.find?_eq_none.mpr (fun x hx => by simp [hdurText x hx])
  have hts : tags.findSome?
      (fun t => (tax.durationPhrases.find? (fun kv => strIncludes t kv.1)).map Prod.snd)
        = none :=
    List.findSome?_eq_none_iff.mpr (fun t ht => by
      rw [List.find?_eq_none.mpr (fun x hx => by simp [hdurTags t ht x hx])]
      rfl)
  unfold IntentExtractor.extract
  simp only [hl, hdt, hts]
  simp

/-- Closed witness for C8, the spec's own scenario: raw text "我想去玩" with
no tags yields `needs_clarification = true` and empty locations. -/
theorem extract_underspecified_witness :
    (IntentExtractor.extract defaultTaxonomy "我想去玩" [] none).locations = []
      ∧ (IntentExtractor.extract defaultTaxonomy "我想去玩" [] none).duration_days = 1
      ∧ (IntentExtractor.extract defaultTaxonomy "我想去玩" [] none).needs_clarification
          = true :=
  extract_underspecified defaultTaxonomy "我想去玩" [] (by decide) (by decide) (by decide)

theorem foldl_push_filter (p : String → Bool) :
    ∀ (l : List String) (acc : List String),
      l.foldl (fun acc d => if p d then acc ++ [d] else acc) acc = acc ++ l.filter p := by
  intro l
  induction l with
  | nil => intro acc; simp
  | cons a t ih =>
    intro acc
    by_cases h : p a <;> simp [h, ih, List.filter_cons]

/-- C10: `extractDestinations` returns exactly the members of the fixed
eight-element whitelist that occur as substrings of the input, in whitelist
order (a sublist of the whitelist, regardless of occurrence order in the
input); nothing outside the whitelist is ever returned, and when the
whitelist misses every place name in the message the planning branch of
`handleSendMessage` falls back to plain chat. -/
theorem extractDestinations_whitelist (input : String) :
    extractDestinations input =
        commonDestinations.filter (fun d => strIncludes input d)
      ∧ (∀ d, d ∈ extractDestinations input →
          d ∈ commonDestinations ∧ strIncludes input d = true)
      ∧ (∀ d, d ∈ commonDestinations → strIncludes input d = true →
          d ∈ extractDestinations input)
      ∧ (extractDestinations input).Sublist commonDestinations
      ∧ (extractDestinations input = [] →
          handleSendMessageBranch input = ChatBranch.chat) := by
  have he : extractDestinations input =
      commonDestinations.filter (fun d => strIncludes input d) := by
    unfold extractDestinations
    rw [foldl_push_filter]
    simp
  refine ⟨he, ?_, ?_, ?_, ?_⟩
  · intro d hd
    rw [he] at hd
    exact ⟨List.mem_of_mem_filter hd, List.of_mem_filter hd⟩
  · intro d hd hinc
    rw [he]
    exact List.mem_filter.mpr ⟨hd, hinc⟩
  · rw [he]
    exact List.filter_sublist _
  · intro h
    simp [handleSendMessageBranch, h]

/-- Closed witness for C10: a planning message containing two whitelisted
names extracts one of them. -/
theorem extractDestinations_whitelist_witness :
    "外滩" ∈ extractDestinations "帮我规划豫园和外滩的行程" :=
  (extractDestinations_whitelist "帮我规划豫园和外滩的行程").2.2.1 "外滩" (by decide) (by decide)

theorem dotQ_cast {n : ℕ} (v w : Fin n → ℚ) :
    ((dotQ v w : ℚ) : ℝ) = ∑ i, (v i : ℝ) * (w i : ℝ) := by
  unfold dotQ
  push_cast
  rfl

theorem dotQ_self_nonneg {n : ℕ} (v : Fin n → ℚ) : 0 ≤ dotQ v v :=
  Finset.sum_nonneg (fun _ _ => mul_self_nonneg _)

theorem dotQ_self_pos {n : ℕ} {v : Fin n → ℚ} (hv : v ≠ 0) : 0 < dotQ v v := by
  obtain ⟨i, hi⟩ := Function.ne_iff.mp hv
  exact Finset.sum_pos' (fun j _ => mul_self_nonneg _)
    ⟨i, Finset.mem_univ i, mul_self_pos.mpr hi⟩

theorem dotQ_nonneg {n : ℕ} {v w : Fin n → ℚ} (hv : ∀ i, 0 ≤ v i)
    (hw : ∀ i, 0 ≤ w i) : 0 ≤ dotQ v w :=
  Finset.sum_nonneg (fun i _ => mul_nonneg (hv i) (hw i))

theorem dotQ_cauchy {n : ℕ} (v w : Fin n → ℚ) :
    ((dotQ v w : ℚ) : ℝ) ^ 2 ≤ ((dotQ v v : ℚ) : ℝ) * ((dotQ w w : ℚ) : ℝ) := by
  have h := Finset.sum_mul_sq_le_sq_mul_sq Finset.univ
    (fun i => (v i : ℝ)) (fun i => (w i : ℝ))
  rw [dotQ_cast, dotQ_cast, dotQ_cast]
  calc (∑ i, (v i : ℝ) * (w i : ℝ)) ^ 2
      ≤ (∑ i, (v i : ℝ) ^ 2) * ∑ i, (w i : ℝ) ^ 2 := h
    _ = (∑ i, (v i : ℝ) * (v i : ℝ)) * ∑ i, (w i : ℝ) * (w i : ℝ) := by
        simp [pow_two]

theorem dotQ_le_sqrt_mul_sqrt {n : ℕ} (v w : Fin n → ℚ) :
    ((dotQ v w : ℚ) : ℝ) ≤ Real.sqrt (dotQ v v : ℚ) * Real.sqrt (dotQ w w : ℚ) := by
  have hA : (0:ℝ) ≤ ((dotQ v v : ℚ) : ℝ) := by
    exact_mod_cast dotQ_self_nonneg v
  calc ((dotQ v w : ℚ) : ℝ) ≤ |((dotQ v w : ℚ) : ℝ)| := le_abs_self _
    _ = Real.sqrt (((dotQ v w : ℚ) : ℝ) ^ 2) := (Real.sqrt_sq_eq_abs _).symm
    _ ≤ Real.sqrt (((dotQ v v : ℚ) : ℝ) * ((dotQ w w : ℚ) : ℝ)) :=
        Real.sqrt_le_sqrt (dotQ_cauchy v w)
    _ = Real.sqrt (dotQ v v : ℚ) * Real.sqrt (dotQ w w : ℚ) := Real.sqrt_mul hA _

theorem baseScore_eq_zero {n : ℕ} {v w : Fin n → ℚ} (h : v = 0 ∨ w = 0) :
    baseScore v w = 0 := by
  unfold baseScore
  rw [if_pos h]

theorem baseScore_nonneg {n : ℕ} {v w : Fin n → ℚ} (hv : ∀ i, 0 ≤ v i)
    (hw : ∀ i, 0 ≤ w i) : 0 ≤ baseScore v w := by
  unfold baseScore
  split
  · exact le_refl 0
  · have hD : (0:ℝ) ≤ ((dotQ v w : ℚ) : ℝ) := by
      exact_mod_cast dotQ_nonneg hv hw
    exact mul_nonneg (by norm_num)
      (div_nonneg hD (mul_nonneg (Real.sqrt_nonneg _) (Real.sqrt_nonneg _)))

theorem baseScore_le_100 {n : ℕ} (v w : Fin n → ℚ) : baseScore v w ≤ 100 := by
  unfold baseScore
  split
  · norm_num
  · next h =>
    push_neg at h
    obtain ⟨hv, hw⟩ := h
    have hA : (0:ℝ) < ((dotQ v v : ℚ) : ℝ) := by exact_mod_cast dotQ_self_pos hv
    have hB : (0:ℝ) < ((dotQ w w : ℚ) : ℝ) := by exact_mod_cast dotQ_self_pos hw
    have hden : (0:ℝ) < Real.sqrt (dotQ v v : ℚ) * Real.sqrt (dotQ w w : ℚ) :=
      mul_pos (Real.sqrt_pos.mpr hA) (Real.sqrt_pos.mpr hB)
    have hcos : cosineSimilarity v w ≤ 1 := by
      unfold cosineSimilarity
      exact (div_le_one hden).mpr (dotQ_le_sqrt_mul_sqrt v w)
    linarith

theorem baseScore_self {n : ℕ} {v : Fin n → ℚ} (hv : v ≠ 0) :
    baseScore v v = 100 := by
  unfold baseScore
  rw [if_neg (by simp [hv])]
  unfold cosineSimilarity
  have hA : (0:ℝ) < ((dotQ v v : ℚ) : ℝ) := by exact_mod_cast dotQ_self_pos hv
  rw [Real.mul_self_sqrt hA.le, div_self hA.ne', mul_one]

theorem candidateVector_nonneg {n : ℕ} (c : POICandidate n) :
    ∀ i, 0 ≤ candidateVector c i := by
  intro i
  unfold candidateVector
  split <;> norm_num

/-- C2: the engine's `base_score` is `100 × cosine_similarity` of the intent
and candidate tag vectors, with the all-zero convention making it 0; for
intent weights in `[0,1]` (and indicator candidate vectors) it always lies
in `[0,100]`, and a candidate whose tag vector equals a non-zero intent
vector gets `base_score = 100`. -/
theorem base_score_cosine_bounds {n : ℕ} (intent : TripIntent n) (c : POICandidate n)
    (ctx : AdapterContext n) (hI : ∀ i, 0 ≤ intent.preference_tags i) :
    (scoreOne intent ctx c).base_score =
        baseScore (intentVector intent) (candidateVector c)
      ∧ (intentVector intent = 0 ∨ candidateVector c = 0 →
          baseScore (intentVector intent) (candidateVector c) = 0)
      ∧ (¬(intentVector intent = 0 ∨ candidateVector c = 0) →
          baseScore (intentVector intent) (candidateVector c) =
            100 * cosineSimilarity (intentVector intent) (candidateVector c))
      ∧ 0 ≤ baseScore (intentVector intent) (candidateVector c)
      ∧ baseScore (intentVector intent) (candidateVector c) ≤ 100
      ∧ (intentVector intent ≠ 0 → intentVector intent = candidateVector c →
          baseScore (intentVector intent) (candidateVector c) = 100) := by
  refine ⟨rfl, baseScore_eq_zero, ?_, baseScore_nonneg hI (candidateVector_nonneg c),
    baseScore_le_100 _ _, fun hne heq => ?_⟩
  · intro h
    unfold baseScore
    rw [if_neg h]
  · rw [← heq]
    exact baseScore_self hne

/-- Closed witness for C2 at a concrete intent and candidate. -/
theorem base_score_cosine_bounds_witness :
    0 ≤ baseScore (intentVector sampleIntent) (candidateVector sampleCand) ∧
      baseScore (intentVector sampleIntent) (candidateVector sampleCand) ≤ 100 :=
  ⟨(base_score_cosine_bounds sampleIntent sampleCand sampleCtx (by decide)).2.2.2.1,
   (base_score_cosine_bounds sampleIntent sampleCand sampleCtx (by decide)).2.2.2.2.1⟩

/-- C9 (amended): `AgentApiService.request` rejects exactly when the response
is not ok; the thrown message is the body's `message` field when that field
is present with a truthy (non-empty) value, else the `error` field when that
is present and truthy, else the default `HTTP error! status: <status>`
string; and an ok response whose object body carries both a `status` and a
`data` key is unwrapped to its `data` field. -/
theorem request_error_policy (resp : HttpResponse) :
    (∀ e, AgentApiService.request resp = Except.error e → resp.ok = false)
      ∧ (resp.ok = false →
          AgentApiService.request resp =
            Except.error (requestErrorMessage resp.body resp.status))
      ∧ (∀ m, resp.body.bind (fun j => j.getField "message") = some m →
          m.truthy = true → requestErrorMessage resp.body resp.status = m)
      ∧ (jsTruthy (resp.body.bind (fun j => j.getField "message")) = false →
          ∀ e, resp.body.bind (fun j => j.getField "error") = some e →
            e.truthy = true → requestErrorMessage resp.body resp.status = e)
      ∧ (jsTruthy (resp.body.bind (fun j => j.getField "message")) = false →
          jsTruthy (resp.body.bind (fun j => j.getField "error")) = false →
            requestErrorMessage resp.body resp.status =
              JsonVal.str ("HTTP error! status: " ++ toString resp.status))
      ∧ (resp.ok = true → ∀ kvs, resp.body = some (JsonVal.obj kvs) →
          (JsonVal.obj kvs).hasKey "status" = true →
          (JsonVal.obj kvs).hasKey "data" = true →
          AgentApiService.request resp =
            Except.ok (((JsonVal.obj kvs).getField "data").getD JsonVal.null)) := by
  refine ⟨?_, ?_, ?_, ?_, ?_, ?_⟩
  · intro e he
    by_contra hok
    have hok' : resp.ok = true := by
      cases h : resp.ok
      · exact absurd h hok
      · rfl
    unfold AgentApiService.request at he
    rw [hok'] at he
    simp at he
    rcases hb : resp.body with _ | j
    · rw [hb] at he
      cases he
    · rw [hb] at he
      cases j <;> simp at he
      split at he <;> cases he
  · intro h
    unfold AgentApiService.request
    rw [if_pos (by rw [h])]
  · intro m hm htr
    unfold requestErrorMessage
    rw [hm]
    rw [if_pos (by simp [jsTruthy, htr])]
    rfl
  · intro hfalsy e he htr
    unfold requestErrorMessage
    rw [if_neg (by rw [hfalsy]; simp)]
    rw [he]
    rw [if_pos (by simp [jsTruthy, htr])]
    rfl
  · intro h1 h2
    unfold requestErrorMessage
    rw [if_neg (by rw [h1]; simp), if_neg (by rw [h2]; simp)]
  · intro hok kvs hb hs hd
    unfold AgentApiService.request
    rw [if_neg (by rw [hok]; simp), hb]
    simp [hs, hd]

/-- C9 counterexample: a 500 response whose body has `message` present (but
empty, hence falsy) next to `error: "boom"` throws "boom", not the present
`message` field's value, refuting the claim's "message field if present"
reading. -/
theorem request_counterexample_present_falsy_message :
    (JsonVal.obj [("message", JsonVal.str ""), ("error", JsonVal.str "boom")]).getField
        "message" = some (JsonVal.str "")
      ∧ AgentApiService.request cexResp = Except.error (JsonVal.str "boom")
      ∧ AgentApiService.request cexResp ≠ Except.error (JsonVal.str "") := by
  refine ⟨rfl, rfl, fun h => ?_⟩
  have h3 : Except.error (ε := JsonVal) (α := JsonVal) (JsonVal.str "boom") =
      Except.error (JsonVal.str "") := h
  have h2 := Except.error.inj h3
  have h4 := JsonVal.str.inj h2
  exact absurd h4 (by decide)

/-- Closed witness for C9: a 404 with a truthy `message` field throws that
message. -/
theorem request_error_policy_witness :
    requestErrorMessage (some (JsonVal.obj [("message", JsonVal.str "nope")])) 404 =
      JsonVal.str "nope" :=
  (request_error_policy
      ⟨false, 404, some (JsonVal.obj [("message", JsonVal.str "nope")])⟩).2.2.1
    (JsonVal.str "nope") rfl rfl

theorem schedIds_cons (d : ItineraryDay) (rest : List ItineraryDay) :
    schedIds (d :: rest) = d.items.map (fun it => it.poi_id) ++ schedIds rest := by
  unfold schedIds
  rw [List.flatMap_cons]

theorem altIds_cons (d : ItineraryDay) (rest : List ItineraryDay) :
    altIds (d :: rest) = (d.items.flatMap fun it => it.alternates) ++ altIds rest := by
  unfold altIds
  rw [List.flatMap_cons]

theorem appendToDay_items {n : ℕ} (d : ItineraryDay) (s : ScoredPOI n)
    (nav : ServiceResult ℕ) :
    ∃ it, (appendToDay d s nav).items = d.items ++ [it]
      ∧ it.poi_id = s.cand.id ∧ it.alternates = [] :=
  ⟨_, rfl, rfl, rfl⟩

theorem placeInDays_spec {n : ℕ} (s : ScoredPOI n) (nav : ServiceResult ℕ) :
    ∀ (days days2 : List ItineraryDay), placeInDays days s nav = some days2 →
      s.cand.id ∈ schedIds days2
        ∧ (∀ x ∈ schedIds days, x ∈ schedIds days2)
        ∧ altIds days2 = altIds days
        ∧ (altOk days → altOk days2) := by
  intro days
  induction days with
  | nil => intro days2 h; cases h
  | cons d rest ih =>
    intro days2 h
    unfold placeInDays at h
    obtain ⟨it, hei, hpid, halt⟩ := appendToDay_items d s nav
    by_cases hf : dayFits d s nav
    · rw [if_pos hf] at h
      cases h
      refine ⟨?_, ?_, ?_, ?_⟩
      · rw [schedIds_cons, hei, List.map_append]
        refine List.mem_append.mpr (Or.inl (List.mem_append.mpr (Or.inr ?_)))
        rw [List.map_singleton, hpid]
        exact List.mem_singleton_self _
      · intro x hx
        rw [schedIds_cons] at hx
        rw [schedIds_cons, hei, List.map_append]
        rcases List.mem_append.mp hx with hx | hx
        · exact List.mem_append.mpr (Or.inl (List.mem_append.mpr (Or.inl hx)))
        · exact List.mem_append.mpr (Or.inr hx)
      · rw [altIds_cons, altIds_cons, hei, List.flatMap_append]
        rw [List.flatMap_singleton, halt, List.append_nil]
      · intro hok d' hd' it' hit'
        rcases List.mem_cons.mp hd' with rfl | hd'
        · rw [hei] at hit'
          rcases List.mem_append.mp hit' with h2 | h2
          · exact hok d (List.mem_cons_self _ _) it' h2
          · rw [List.mem_singleton] at h2
            subst h2
            rw [halt]
            norm_num
        · exact hok d' (List.mem_cons_of_mem _ hd') it' hit'
    · rw [if_neg hf] at h
      obtain ⟨ds2, hrec, heq⟩ := Option.map_eq_some'.mp h
      subst heq
      obtain ⟨h1, h2, h3, h4⟩ := ih ds2 hrec
      refine ⟨?_, ?_, ?_, ?_⟩
      · rw [schedIds_cons]
        exact List.mem_append.mpr (Or.inr h1)
      · intro x hx
        rw [schedIds_cons] at hx
        rw [schedIds_cons]
        rcases List.mem_append.mp hx with hx | hx
        · exact List.mem_append.mpr (Or.inl hx)
        · exact List.mem_append.mpr (Or.inr (h2 x hx))
      · rw [altIds_cons, altIds_cons, h3]
      · intro hok d' hd' it' hit'
        rcases List.mem_cons.mp hd' with rfl | hd'
        · exact hok d' (List.mem_cons_self _ _) it' hit'
        · exact h4 (fun d0 hd0 it0 hit0 =>
            hok d0 (List.mem_cons_of_mem _ hd0) it0 hit0) d' hd' it' hit'

theorem addAltItems_spec (pid : ℕ) :
    ∀ (items items2 : List ItineraryItem), addAltItems items pid = some items2 →
      pid ∈ items2.flatMap (fun it => it.alternates)
        ∧ (∀ x ∈ items.flatMap (fun it => it.alternates),
            x ∈ items2.flatMap (fun it => it.alternates))
        ∧ items2.map (fun it => it.poi_id) = items.map (fun it => it.poi_id)
        ∧ ((∀ it ∈ items, it.alternates.length ≤ 3) →
            (∀ it ∈ items2, it.alternates.length ≤ 3)) := by
  intro items
  induction items with
  | nil => intro items2 h; cases h
  | cons it rest ih =>
    intro items2 h
    unfold addAltItems at h
    by_cases hl : it.alternates.length < 3
    · rw [if_pos hl] at h
      cases h
      refine ⟨?_, ?_, ?_, ?_⟩
      · rw [List.flatMap_cons]
        refine List.mem_append.mpr (Or.inl (List.mem_append.mpr (Or.inr ?_)))
        exact List.mem_singleton_self _
      · intro x hx
        rw [List.flatMap_cons] at hx
        rw [List.flatMap_cons]
        rcases List.mem_append.mp hx with hx | hx
        · exact List.mem_append.mpr (Or.inl (List.mem_append.mpr (Or.inl hx)))
        · exact List.mem_append.mpr (Or.inr hx)
      · rw [List.map_cons, List.map_cons]
      · intro hok it' hit'
        rcases List.mem_cons.mp hit' with rfl | hit'
        · rw [List.length_append, List.length_singleton]
          omega
        · exact hok it' (List.mem_cons_of_mem _ hit')
    · rw [if_neg hl] at h
      obtain ⟨is2, hrec, heq⟩ := Option.map_eq_some'.mp h
      subst heq
      obtain ⟨h1, h2, h3, h4⟩ := ih is2 hrec
      refine ⟨?_, ?_, ?_, ?_⟩
      · rw [List.flatMap_cons]
        exact List.mem_append.mpr (Or.inr h1)
      · intro x hx
        rw [List.flatMap_cons] at hx
        rw [List.flatMap_cons]
        rcases List.mem_append.mp hx with hx | hx
        · exact List.mem_append.mpr (Or.inl hx)
        · exact List.mem_append.mpr (Or.inr (h2 x hx))
      · rw [List.map_cons, List.map_cons, h3]
      · intro hok it' hit'
        rcases List.mem_cons.mp hit' with rfl | hit'
        · exact hok it' (List.mem_cons_self _ _)
        · exact h4 (fun it0 hit0 => hok it0 (List.mem_cons_of_mem _ hit0)) it' hit'

theorem addAlternate_spec (pid : ℕ) :
    ∀ (days days2 : List ItineraryDay), addAlternate days pid = some days2 →
      pid ∈ altIds days2
        ∧ (∀ x ∈ altIds days, x ∈ altIds days2)
        ∧ schedIds days2 = schedIds days
        ∧ (altOk days → altOk days2) := by
  intro days
  induction days with
  | nil => intro days2 h; cases h
  | cons d rest ih =>
    intro days2 h
    unfold addAlternate at h
    cases haa : addAltItems d.items pid with
    | some items2 =>
      rw [haa] at h
      cases h
      obtain ⟨h1, h2, h3, h4⟩ := addAltItems_spec pid d.items items2 haa
      refine ⟨?_, ?_, ?_, ?_⟩
      · rw [altIds_cons]
        exact List.mem_append.mpr (Or.inl h1)
      · intro x hx
        rw [altIds_cons] at hx
        rw [altIds_cons]
        rcases List.mem_append.mp hx with hx | hx
        · exact List.mem_append.mpr (Or.inl (h2 x hx))
        · exact List.mem_append.mpr (Or.inr hx)
      · rw [schedIds_cons, schedIds_cons, h3]
      · intro hok d' hd' it' hit'
        rcases List.mem_cons.mp hd' with rfl | hd'
        · exact h4 (fun it0 hit0 => hok d (List.mem_cons_self _ _) it0 hit0) it' hit'
        · exact hok d' (List.mem_cons_of_mem _ hd') it' hit'
    | none =>
      rw [haa] at h
      obtain ⟨ds2, hrec, heq⟩ := Option.map_eq_some'.mp h
      subst heq
      obtain ⟨h1, h2, h3, h4⟩ := ih ds2 hrec
      refine ⟨?_, ?_, ?_, ?_⟩
      · rw [altIds_cons]
        exact List.mem_append.mpr (Or.inr h1)
      · intro x hx
        rw [altIds_cons] at hx
        rw [altIds_cons]
        rcases List.mem_append.mp hx with hx | hx
        · exact List.mem_append.mpr (Or.inl hx)
        · exact List.mem_append.mpr (Or.inr (h2 x hx))
      · rw [schedIds_cons, schedIds_cons, h3]
      · intro hok d' hd' it' hit'
        rcases List.mem_cons.mp hd' with rfl | hd'
        · exact hok d' (List.mem_cons_self _ _) it' hit'
        · exact h4 (fun d0 hd0 it0 hit0 =>
            hok d0 (List.mem_cons_of_mem _ hd0) it0 hit0) d' hd' it' hit'

theorem assembleStep_self {n : ℕ} (nav : ServiceResult ℕ)
    (st : List ItineraryDay × List ℕ) (s : ScoredPOI n) :
    accountedIn (assembleStep nav st s) s.cand.id := by
  unfold assembleStep accountedIn
  cases hp : placeInDays st.1 s nav with
  | some days2 => exact Or.inl (placeInDays_spec s nav st.1 days2 hp).1
  | none =>
    cases ha : addAlternate st.1 s.cand.id with
    | some days2 => exact Or.inr (Or.inl (addAlternate_spec _ st.1 days2 ha).1)
    | none =>
      exact Or.inr (Or.inr (List.mem_append.mpr (Or.inr (List.mem_singleton_self _))))

theorem assembleStep_mono {n : ℕ} (nav : ServiceResult ℕ)
    (st : List ItineraryDay × List ℕ) (s : ScoredPOI n) (x : ℕ)
    (hx : accountedIn st x) : accountedIn (assembleStep nav st s) x := by
  unfold assembleStep accountedIn
  unfold accountedIn at hx
  cases hp : placeInDays st.1 s nav with
  | some days2 =>
    obtain ⟨_, h2, h3, _⟩ := placeInDays_spec s nav st.1 days2 hp
    rcases hx with hx | hx | hx
    · exact Or.inl (h2 x hx)
    · exact Or.inr (Or.inl (h3 ▸ hx))
    · exact Or.inr (Or.inr hx)
  | none =>
    cases ha : addAlternate st.1 s.cand.id with
    | some days2 =>
      obtain ⟨_, h2, h3, _⟩ := addAlternate_spec _ st.1 days2 ha
      rcases hx with hx | hx | hx
      · exact Or.inl (h3 ▸ hx)
      · exact Or.inr (Or.inl (h2 x hx))
      · exact Or.inr (Or.inr hx)
    | none =>
      rcases hx with hx | hx | hx
      · exact Or.inl hx
      · exact Or.inr (Or.inl hx)
      · exact Or.inr (Or.inr (List.mem_append.mpr (Or.inl hx)))

theorem assembleStep_altOk {n : ℕ} (nav : ServiceResult ℕ)
    (st : List ItineraryDay × List ℕ) (s : ScoredPOI n)
    (h : altOk st.1) : altOk (assembleStep nav st s).1 := by
  unfold assembleStep
  cases hp : placeInDays st.1 s nav with
  | some days2 => exact (placeInDays_spec s nav st.1 days2 hp).2.2.2 h
  | none =>
    cases ha : addAlternate st.1 s.cand.id with
    | some days2 => exact (addAlternate_spec _ st.1 days2 ha).2.2.2 h
    | none => exact h

theorem foldl_assembleStep_mono {n : ℕ} (nav : ServiceResult ℕ) :
    ∀ (l : List (ScoredPOI n)) (st : List ItineraryDay × List ℕ) (x : ℕ),
      accountedIn st x → accountedIn (l.foldl (assembleStep nav) st) x := by
  intro l
  induction l with
  | nil => intro st x hx; exact hx
  | cons a t ih =>
    intro st x hx
    rw [List.foldl_cons]
    exact ih _ x (assembleStep_mono nav st a x hx)

theorem foldl_assembleStep_altOk {n : ℕ} (nav : ServiceResult ℕ) :
    ∀ (l : List (ScoredPOI n)) (st : List ItineraryDay × List ℕ),
      altOk st.1 → altOk (l.foldl (assembleStep nav) st).1 := by
  intro l
  induction l with
  | nil => intro st h; exact h
  | cons a t ih =>
    intro st h
    rw [List.foldl_cons]
    exact ih _ (assembleStep_altOk nav st a h)

theorem assembleState_accounts {n : ℕ} (nav : ServiceResult ℕ) :
    ∀ (scored : List (ScoredPOI n)) (st : List ItineraryDay × List ℕ)
      (s : ScoredPOI n), s ∈ scored →
      accountedIn (scored.foldl (assembleStep nav) st) s.cand.id := by
  intro scored
  induction scored with
  | nil => intro st s hs; cases hs
  | cons a t ih =>
    intro st s hs
    rw [List.foldl_cons]
    rcases List.mem_cons.mp hs with rfl | hs
    · exact foldl_assembleStep_mono nav t _ _ (assembleStep_self nav st s)
    · exact ih _ s hs

theorem replicate_empty_altOk (k : ℕ) : altOk (List.replicate k ⟨[]⟩) := by
  intro d hd it hit
  rw [List.eq_of_mem_replicate hd] at hit
  cases hit

set_option maxHeartbeats 1000000 in
/-- C7 (amended): the assembler accounts for every considered POI up to
alternate capacity: each scored POI is scheduled in some day, or recorded in
the alternates list (at most 3 entries per item) of an item of the first day
with spare alternate capacity, or — when no day can accommodate it and every
scheduled item already carries 3 alternates — recorded in the plan's dropped
list; nothing disappears without record, but the original claim that every
POI is scheduled or an alternate fails once capacity is exhausted. -/
theorem assemble_accounts_every_poi {n : ℕ} (scored : List (ScoredPOI n))
    (intent : TripIntent n) (nav : ServiceResult ℕ) (s : ScoredPOI n)
    (hs : s ∈ scored) :
    (s.cand.id ∈ schedIds (ItineraryAssembler.assemble scored intent nav).days
        ∨ s.cand.id ∈ altIds (ItineraryAssembler.assemble scored intent nav).days
        ∨ s.cand.id ∈ (ItineraryAssembler.assemble scored intent nav).droppedIds)
      ∧ altOk (ItineraryAssembler.assemble scored intent nav).days := by
  have hdays : (ItineraryAssembler.assemble scored intent nav).days =
      (assembleState scored (List.replicate (max intent.duration_days 1) ⟨[]⟩) nav).1 := rfl
  have hdrop : (ItineraryAssembler.assemble scored intent nav).droppedIds =
      (assembleState scored (List.replicate (max intent.duration_days 1) ⟨[]⟩) nav).2 := rfl
  rw [hdays, hdrop]
  constructor
  · exact assembleState_accounts nav scored _ s hs
  · exact foldl_assembleStep_altOk nav scored _ (replicate_empty_altOk _)

/-- Closed witness for C7: a single schedulable POI is accounted for. -/
theorem assemble_accounts_every_poi_witness :
    sampleScored.cand.id ∈ schedIds
        (ItineraryAssembler.assemble [sampleScored] cexIntent cexNav).days
      ∨ sampleScored.cand.id ∈ altIds
        (ItineraryAssembler.assemble [sampleScored] cexIntent cexNav).days
      ∨ sampleScored.cand.id ∈
        (ItineraryAssembler.assemble [sampleScored] cexIntent cexNav).droppedIds :=
  (assemble_accounts_every_poi [sampleScored] cexIntent cexNav sampleScored
    (List.mem_singleton_self _)).1

set_option maxHeartbeats 4000000 in
/-- C7 counterexample: seventeen candidates against a one-day plan (capacity
4 scheduled items + 3 alternates each) leave candidate 16 neither scheduled
nor recorded as any item's alternate, refuting the claim as stated. -/
theorem assemble_drops_poi_counterexample :
    16 ∈ cexScored.map (fun s => s.cand.id)
      ∧ ¬ 16 ∈ schedIds (ItineraryAssembler.assemble cexScored cexIntent cexNav).days
      ∧ ¬ 16 ∈ altIds (ItineraryAssembler.assemble cexScored cexIntent cexNav).days
      ∧ 16 ∈ (ItineraryAssembler.assemble cexScored cexIntent cexNav).droppedIds := by
  refine ⟨by decide, by decide, by decide, by decide⟩

set_option maxHeartbeats 2000000 in
/-- C5: refining a freshly produced plan with empty (no-op) feedback under
the default taxonomy succeeds and returns a plan carrying exactly the same
`adjusted_score` values as the previous plan, with only the iteration
counter advanced: the refinement loop does not drift without new
information. -/
theorem refine_noop_idempotent (intent : TripIntent 4) (env : AdapterEnv 4) :
    ∃ p', FeedbackRefiner.refine defaultTaxonomy (planOnce intent env) "" intent env =
        Except.ok p'
      ∧ planScores p' = planScores (planOnce intent env)
      ∧ p'.iteration = (planOnce intent env).iteration + 1 := ⟨_, rfl, rfl, rfl⟩
